import Mathlib

/-!
Verification of the Boost.Align dispatch header `boost/align/aligned_alloc.hpp`.

The header is a compile-time dispatch shim: a chain of preprocessor
conditionals on platform, compiler and feature-test macros selects exactly one
back-end implementation header, and two using-declarations re-export the
selected back-end's `detail::aligned_alloc` and `detail::aligned_free` into
the public namespaces `boost::alignment` and `boost`.

We shallow-embed:
* the macro environment as a structure `Config` (a numeric macro that is
  undefined expands to 0 in a preprocessor conditional, so undefined numeric
  macros are represented by the value 0);
* the conditional-inclusion chain as the function `selectBackend`;
* the include guard as a translation-unit state transformer
  `includeAlignedAlloc`;
* the using-declarations as a symbol table mapping public names to a
  (back-end, operation) pair.

The back-end implementation files themselves are not part of this repository
fragment; the portable manual fallback back-end is modelled from the spec
(see the doc comments on `malloc`, `aligned_alloc` and `aligned_free` below).
-/

namespace BoostAlign

/-- The five back-end implementation headers the dispatch chain can include:
the MSVC intrinsic back-end (`aligned_alloc_msvc.hpp`), the POSIX back-end
(`aligned_alloc_posix.hpp`), the Android back-end
(`aligned_alloc_android.hpp`), the legacy SunOS back-end
(`aligned_alloc_sunos.hpp`), and the portable manual fallback
(`aligned_alloc.hpp` in detail). -/
inductive Backend where
  | msvc
  | posix
  | android
  | sunos
  | fallback
deriving DecidableEq, Repr

/-- The compile-time macro environment consulted by the dispatch chain.
Boolean fields record whether an identifier-like macro is defined.
Numeric fields carry the value a macro expands to inside a preprocessor
conditional; an undefined numeric macro expands to 0 there, so the value 0
also represents "undefined". -/
structure Config where
  boost_msvc : Bool
  mingw32 : Bool
  msvcrtVersion : Nat
  macOsXVersionMinRequired : Nat
  android : Bool
  sunos_5_11 : Bool
  sunos_5_12 : Bool
  sun_lower : Bool
  sun_under : Bool
  posixCSource : Nat
  xopenSource : Nat
deriving DecidableEq, Repr

/-- The tail of the dispatch chain, from the Apple condition onwards
(everything after the two Windows-family branches). -/
def selectTail (c : Config) : Backend :=
  if 1060 ≤ c.macOsXVersionMinRequired then Backend.posix
  else if c.android then Backend.android
  else if c.sunos_5_11 || c.sunos_5_12 then Backend.posix
  else if c.sun_lower || c.sun_under then Backend.sunos
  else if 200112 ≤ c.posixCSource ∨ 600 ≤ c.xopenSource then Backend.posix
  else Backend.fallback

/-- The full dispatch chain of the header: first the `BOOST_MSVC` branch,
then the MinGW branch (which also requires the C runtime version macro to be
at least 0x0700), then the tail chain, with the portable fallback as the
trailing else. -/
def selectBackend (c : Config) : Backend :=
  if c.boost_msvc then Backend.msvc
  else if c.mingw32 && decide (0x0700 ≤ c.msvcrtVersion) then Backend.msvc
  else selectTail c

/-- The condition of the k-th conditional branch of the chain, in source
order (0 = `BOOST_MSVC`, 1 = MinGW, 2 = Apple, 3 = Android,
4 = SunOS 5.11/5.12, 5 = legacy sun, 6 = POSIX feature test); indices
beyond 6 never fire. -/
def codeCond : Nat → Config → Bool
  | 0, c => c.boost_msvc
  | 1, c => c.mingw32 && decide (0x0700 ≤ c.msvcrtVersion)
  | 2, c => decide (1060 ≤ c.macOsXVersionMinRequired)
  | 3, c => c.android
  | 4, c => c.sunos_5_11 || c.sunos_5_12
  | 5, c => c.sun_lower || c.sun_under
  | 6, c => decide (200112 ≤ c.posixCSource) || decide (600 ≤ c.xopenSource)
  | _, _ => false

/-- The back-end header included by the k-th branch of the chain; index 7 is
the trailing else, which includes the portable fallback. -/
def branchBackend : Nat → Backend
  | 0 => Backend.msvc
  | 1 => Backend.msvc
  | 2 => Backend.posix
  | 3 => Backend.android
  | 4 => Backend.posix
  | 5 => Backend.sunos
  | 6 => Backend.posix
  | _ => Backend.fallback

/-- The index of the branch the preprocessor takes: the first condition that
holds, or 7 (the trailing else) when none does. -/
def branchTaken (c : Config) : Nat :=
  if c.boost_msvc then 0
  else if c.mingw32 && decide (0x0700 ≤ c.msvcrtVersion) then 1
  else if 1060 ≤ c.macOsXVersionMinRequired then 2
  else if c.android then 3
  else if c.sunos_5_11 || c.sunos_5_12 then 4
  else if c.sun_lower || c.sun_under then 5
  else if 200112 ≤ c.posixCSource ∨ 600 ≤ c.xopenSource then 6
  else 7

/-- The claim-level conditions of the seven-priority chain (the claim merges
the two Windows-family source branches into one priority): 0 = Windows-family
compiler intrinsic, 1 = Apple minimum OS version, 2 = Android,
3 = SunOS 5.11/5.12, 4 = legacy SunOS, 5 = POSIX feature test. -/
def claimCond : Nat → Config → Bool
  | 0, c => c.boost_msvc || (c.mingw32 && decide (0x0700 ≤ c.msvcrtVersion))
  | 1, c => decide (1060 ≤ c.macOsXVersionMinRequired)
  | 2, c => c.android
  | 3, c => c.sunos_5_11 || c.sunos_5_12
  | 4, c => c.sun_lower || c.sun_under
  | 5, c => decide (200112 ≤ c.posixCSource) || decide (600 ≤ c.xopenSource)
  | _, _ => false

/-- The back-end named by the k-th claim-level priority; 6 stands for the
portable fallback of priority 7. -/
def claimBackend : Nat → Backend
  | 0 => Backend.msvc
  | 1 => Backend.posix
  | 2 => Backend.android
  | 3 => Backend.posix
  | 4 => Backend.sunos
  | 5 => Backend.posix
  | _ => Backend.fallback

theorem selectTail_ne_msvc (c : Config) : selectTail c ≠ Backend.msvc := by
  unfold selectTail
  split_ifs <;> simp

theorem branchTaken_le (c : Config) : branchTaken c ≤ 7 := by
  unfold branchTaken
  split_ifs <;> omega

theorem branchTaken_cond (c : Config) (h : branchTaken c < 7) :
    codeCond (branchTaken c) c = true := by
  unfold branchTaken at *
  split_ifs at * <;> simp_all [codeCond]

theorem branchTaken_prev (c : Config) (j : Nat) (h : j < branchTaken c) :
    codeCond j c = false := by
  unfold branchTaken at h
  split_ifs at h with h0 h1 h2 h3 h4 h5 h6 <;>
    interval_cases j <;> simp_all [codeCond]

theorem selectBackend_eq_branch (c : Config) :
    selectBackend c = branchBackend (branchTaken c) := by
  unfold selectBackend selectTail branchTaken
  split_ifs <;> rfl

/-- C1: back-end selection is a compile-time first-match-wins chain in the
claimed priority order (Windows-family intrinsic, Apple minimum OS version
via POSIX, Android, SunOS 5.11/5.12 via POSIX, legacy SunOS, generic POSIX,
portable fallback): for every macro assignment, if the k-th claim condition
is the first that holds then the k-th claimed back-end is selected, and when
none holds the portable fallback is selected. -/
theorem claim1_selection_priority_chain (c : Config) :
    (∀ k, k ≤ 5 → claimCond k c = true →
      (∀ j, j < k → claimCond j c = false) →
      selectBackend c = claimBackend k) ∧
    ((∀ j, j ≤ 5 → claimCond j c = false) → selectBackend c = Backend.fallback) := by
  constructor
  · intro k hk hc hp
    interval_cases k
    · clear hp
      simp only [claimCond] at hc
      unfold selectBackend selectTail
      split_ifs <;> simp_all [claimBackend]
    · have h0 := hp 0 (by norm_num)
      clear hp
      simp only [claimCond] at hc h0
      unfold selectBackend selectTail
      split_ifs <;> simp_all [claimBackend]
    · have h0 := hp 0 (by norm_num); have h1 := hp 1 (by norm_num)
      clear hp
      simp only [claimCond] at hc h0 h1
      unfold selectBackend selectTail
      split_ifs <;> simp_all [claimBackend]
    · have h0 := hp 0 (by norm_num); have h1 := hp 1 (by norm_num)
      have h2 := hp 2 (by norm_num)
      clear hp
      simp only [claimCond] at hc h0 h1 h2
      unfold selectBackend selectTail
      split_ifs <;> simp_all [claimBackend]
    · have h0 := hp 0 (by norm_num); have h1 := hp 1 (by norm_num)
      have h2 := hp 2 (by norm_num); have h3 := hp 3 (by norm_num)
      clear hp
      simp only [claimCond] at hc h0 h1 h2 h3
      unfold selectBackend selectTail
      split_ifs <;> simp_all [claimBackend]
    · have h0 := hp 0 (by norm_num); have h1 := hp 1 (by norm_num)
      have h2 := hp 2 (by norm_num); have h3 := hp 3 (by norm_num)
      have h4 := hp 4 (by norm_num)
      clear hp
      simp only [claimCond] at hc h0 h1 h2 h3 h4
      unfold selectBackend selectTail
      split_ifs <;> simp_all [claimBackend]
  · intro hall
    have h0 := hall 0 (by norm_num); have h1 := hall 1 (by norm_num)
    have h2 := hall 2 (by norm_num); have h3 := hall 3 (by norm_num)
    have h4 := hall 4 (by norm_num); have h5 := hall 5 (by norm_num)
    clear hall
    simp only [claimCond] at h0 h1 h2 h3 h4 h5
    unfold selectBackend selectTail
    split_ifs <;> simp_all
    omega

/-- C8: the dispatch chain is total and exclusive — for every macro
assignment there is exactly one branch index k (0..6 the conditional
branches in source order, 7 the trailing else) such that branch k is taken:
its condition holds, every earlier condition fails, and the selected
back-end header is the one branch k includes. -/
theorem claim8_chain_total_exclusive (c : Config) :
    ∃! k : Nat, k ≤ 7 ∧ (k < 7 → codeCond k c = true) ∧
      (∀ j, j < k → codeCond j c = false) ∧
      selectBackend c = branchBackend k := by
  refine ⟨branchTaken c,
    ⟨branchTaken_le c, branchTaken_cond c, branchTaken_prev c,
     selectBackend_eq_branch c⟩, ?_⟩
  rintro y ⟨hy7, hyc, hyp, -⟩
  by_contra hne
  rcases Nat.lt_or_ge y (branchTaken c) with hlt | hge
  · have hfalse := branchTaken_prev c y hlt
    have hy : y < 7 := lt_of_lt_of_le hlt (branchTaken_le c)
    simp_all
  · have hlt' : branchTaken c < y := lt_of_le_of_ne hge (Ne.symm hne)
    have hfalse := hyp (branchTaken c) hlt'
    have hbl : branchTaken c < 7 := lt_of_lt_of_le hlt' hy7
    have htrue := branchTaken_cond c hbl
    simp_all

/-- C9: a MinGW build whose C runtime version macro is below 0x0700 (with 0
standing for "undefined", since an undefined macro expands to 0 in a
preprocessor conditional) and which is not an MSVC build does not receive
the Windows intrinsic back-end: selection falls through the first two
branches to the tail chain, and the result is never the MSVC back-end. -/
theorem claim9_mingw_old_crt_falls_through (c : Config)
    (h1 : c.boost_msvc = false) (h2 : c.mingw32 = true)
    (h3 : c.msvcrtVersion < 0x0700) :
    selectBackend c = selectTail c ∧ selectBackend c ≠ Backend.msvc := by
  have he : selectBackend c = selectTail c := by
    unfold selectBackend
    simp [h1, h2, Nat.not_le.mpr h3]
  exact ⟨he, he ▸ selectTail_ne_msvc c⟩

/-- A concrete Android macro assignment: only ANDROID is defined. -/
def cAndroid : Config :=
  ⟨false, false, 0, 0, true, false, false, false, false, 0, 0⟩

/-- A concrete macro assignment for a MinGW build with an old C runtime:
MINGW32 is defined, the C runtime version macro is undefined (0), and a
POSIX feature-test macro is visible. -/
def cMingwOld : Config :=
  ⟨false, true, 0, 0, false, false, false, false, false, 200112, 0⟩

/-- Witness for C1: on the concrete Android assignment the third priority
(claim condition 2) is the first that holds, and the chain selects the
Android back-end. -/
theorem claim1_witness :
    (2 ≤ 5 ∧ claimCond 2 cAndroid = true ∧
      (∀ j, j < 2 → claimCond j cAndroid = false)) ∧
    selectBackend cAndroid = claimBackend 2 :=
  ⟨⟨by norm_num, by decide, by intro j hj; interval_cases j <;> decide⟩,
   (claim1_selection_priority_chain cAndroid).1 2 (by norm_num) (by decide)
     (by intro j hj; interval_cases j <;> decide)⟩

/-- Witness for C9: on the concrete old-C-runtime MinGW assignment the
hypotheses hold and selection falls through to the tail chain (here the
POSIX back-end), not the MSVC back-end. -/
theorem claim9_witness :
    (cMingwOld.boost_msvc = false ∧ cMingwOld.mingw32 = true ∧
      cMingwOld.msvcrtVersion < 0x0700) ∧
    (selectBackend cMingwOld = selectTail cMingwOld ∧
      selectBackend cMingwOld ≠ Backend.msvc) :=
  ⟨⟨rfl, rfl, by decide⟩,
   claim9_mingw_old_crt_falls_through cMingwOld rfl rfl (by decide)⟩

/-! ### The public re-exports (C2)

After the chain has included exactly one back-end header, the names
`detail::aligned_alloc` and `detail::aligned_free` denote the two
definitions of that back-end. The header then re-exports them with
`using detail::aligned_alloc; using detail::aligned_free;` inside
`namespace boost { namespace alignment { ... } }` followed by
`using alignment::aligned_alloc; using alignment::aligned_free;` in
`namespace boost`. A using-declaration introduces an alias for an existing
definition, so we model name resolution as a map from each public name to
the (back-end, operation) pair it denotes. -/

/-- The two operations the header re-exports. -/
inductive Op where
  | alloc
  | free
deriving DecidableEq, Repr

/-- What `detail::aligned_alloc` / `detail::aligned_free` denote after
preprocessing: the corresponding definition of the single back-end header
that the chain included. -/
def detailImpl (c : Config) (o : Op) : Backend × Op := (selectBackend c, o)

/-- What `boost::alignment::aligned_alloc` denotes: introduced by
`using detail::aligned_alloc` inside `namespace boost { namespace alignment }`. -/
def boost_alignment_aligned_alloc (c : Config) : Backend × Op :=
  detailImpl c Op.alloc

/-- What `boost::alignment::aligned_free` denotes: introduced by
`using detail::aligned_free` inside `namespace boost { namespace alignment }`. -/
def boost_alignment_aligned_free (c : Config) : Backend × Op :=
  detailImpl c Op.free

/-- What `boost::aligned_alloc` denotes: introduced by
`using alignment::aligned_alloc` inside `namespace boost`. -/
def boost_aligned_alloc (c : Config) : Backend × Op :=
  boost_alignment_aligned_alloc c

/-- What `boost::aligned_free` denotes: introduced by
`using alignment::aligned_free` inside `namespace boost`. -/
def boost_aligned_free (c : Config) : Backend × Op :=
  boost_alignment_aligned_free c

/-- C2: the four public names all resolve to the selected back-end's two
detail definitions — `boost::alignment::aligned_alloc`,
`boost::aligned_alloc` and `detail::aligned_alloc` coincide (and likewise
for `aligned_free`), and they denote exactly the corresponding operation of
the back-end picked by `selectBackend`; all equalities are definitional. -/
theorem claim2_public_names_alias_selected_backend (c : Config) :
    boost_alignment_aligned_alloc c = detailImpl c Op.alloc ∧
    boost_alignment_aligned_free c = detailImpl c Op.free ∧
    boost_aligned_alloc c = detailImpl c Op.alloc ∧
    boost_aligned_free c = detailImpl c Op.free ∧
    boost_aligned_alloc c = boost_alignment_aligned_alloc c ∧
    boost_aligned_free c = boost_alignment_aligned_free c ∧
    detailImpl c Op.alloc = (selectBackend c, Op.alloc) ∧
    detailImpl c Op.free = (selectBackend c, Op.free) :=
  ⟨rfl, rfl, rfl, rfl, rfl, rfl, rfl, rfl⟩

/-! ### The include guard (C10)

The whole body of the header sits between
`ifndef BOOST_ALIGN_ALIGNED_ALLOC_HPP` / `define BOOST_ALIGN_ALIGNED_ALLOC_HPP`
and the closing `endif`. We model the state of a translation unit by
whether the guard macro is defined and how many times the body has been
emitted. -/

/-- Translation-unit state for the include guard: whether
`BOOST_ALIGN_ALIGNED_ALLOC_HPP` is defined, and how many times the header
body has been emitted into the translation unit. -/
structure TU where
  guardDefined : Bool
  bodyCount : Nat
deriving DecidableEq, Repr

/-- One inclusion of `aligned_alloc.hpp`: if the guard macro is already
defined the whole body is skipped and the state is unchanged; otherwise the
guard macro is defined and the body is emitted once. -/
def includeAlignedAlloc (t : TU) : TU :=
  if t.guardDefined then t
  else { guardDefined := true, bodyCount := t.bodyCount + 1 }

/-- n successive inclusions of `aligned_alloc.hpp`. -/
def includeN : Nat → TU → TU
  | 0, t => t
  | n + 1, t => includeN n (includeAlignedAlloc t)

theorem includeAlignedAlloc_guard (t : TU) :
    (includeAlignedAlloc t).guardDefined = true := by
  unfold includeAlignedAlloc
  split_ifs with h
  · exact h
  · rfl

theorem includeN_guarded (n : Nat) (t : TU) (h : t.guardDefined = true) :
    includeN n t = t := by
  induction n with
  | zero => rfl
  | succ m ih =>
      have hstep : includeAlignedAlloc t = t := by
        unfold includeAlignedAlloc
        rw [if_pos h]
      show includeN m (includeAlignedAlloc t) = t
      rw [hstep, ih]

/-- C10: inclusion is idempotent — including `aligned_alloc.hpp` n+1 times
in one translation unit leaves the translation unit in exactly the state of
including it once, because the include guard skips the entire body on every
inclusion after the first. -/
theorem claim10_include_idempotent (t : TU) (n : Nat) :
    includeN (n + 1) t = includeAlignedAlloc t := by
  show includeN n (includeAlignedAlloc t) = includeAlignedAlloc t
  exact includeN_guarded n _ (includeAlignedAlloc_guard t)

/-! ### The allocator contract (C3–C7)

The back-end implementation headers live outside this repository fragment;
only the dispatch shim is under `src/`. The allocator below is therefore
modelled from the spec: the portable manual fallback of priority 7, built
from ordinary allocation plus manual pointer adjustment, which stores the
original unaligned allocation's address immediately before the aligned
region so that the free operation can recover and release it.

Addresses and sizes are natural numbers below `2 ^ 64`; the null pointer is
the address 0. A heap records the word it stores at each address (used only
for the bookkeeping header), the list of live blocks handed out by the
ordinary allocator, and the next fresh address of the ordinary allocator. -/

/-- Size in bytes of a pointer (the bookkeeping header stores one pointer). -/
def ptrSize : Nat := 8

/-- Size of the address space; every block must fit below this bound. -/
def addrSpace : Nat := 2 ^ 64

/-- The largest representable size, SIZE_MAX of a 64-bit platform. -/
def sizeMax : Nat := 2 ^ 64 - 1

/-- A heap: the word stored at each address (only the bookkeeping headers
matter), the live blocks of the ordinary allocator as (start, length) pairs,
and the next fresh address the ordinary allocator will hand out. -/
structure Heap where
  mem : Nat → Nat
  blocks : List (Nat × Nat)
  next : Nat

/-- Modelled from the spec: the ordinary (unaligned) allocation primitive
the fallback builds on. It hands out the next fresh address when the
requested block fits in the address space and fails otherwise; failure is
reported by the null marker `none` with the heap unchanged. -/
def malloc (h : Heap) (n : Nat) : Option Nat × Heap :=
  if h.next + n ≤ addrSpace then
    (some h.next, { h with blocks := (h.next, n) :: h.blocks, next := h.next + n })
  else (none, h)

/-- The least multiple of n that is at least x (the manual pointer
adjustment of the fallback). -/
def alignUp (x n : Nat) : Nat := (x + n - 1) / n * n

/-- Modelled from the spec: the portable fallback `aligned_alloc`
(`detail::aligned_alloc` of the fallback back-end header, absent from this
fragment), instrumented with the number of ordinary-allocation calls it
makes. It requests one ordinary block large enough for the payload, the
alignment adjustment and the bookkeeping header; on success it rounds the
address past the header up to the alignment, records the original address
immediately before the aligned region, and returns the aligned address; on
failure it returns the null marker and changes nothing. -/
def aligned_allocT (h : Heap) (size alignment : Nat) :
    Option Nat × Heap × Nat :=
  match malloc h (size + alignment + ptrSize) with
  | (none, h1) => (none, h1, 1)
  | (some p, h1) =>
      let r := alignUp (p + ptrSize) alignment
      (some r,
       { h1 with mem := fun x => if x = r - ptrSize then p else h1.mem x },
       1)

/-- Modelled from the spec: the portable fallback `aligned_alloc` as the
caller sees it (the instrumentation projected away). -/
def aligned_alloc (h : Heap) (size alignment : Nat) : Option Nat × Heap :=
  ((aligned_allocT h size alignment).1, (aligned_allocT h size alignment).2.1)

/-- Remove the first live block starting at the given address. -/
def removeBlock : List (Nat × Nat) → Nat → List (Nat × Nat)
  | [], _ => []
  | b :: bs, q => if b.1 = q then bs else b :: removeBlock bs q

/-- Modelled from the spec: the portable fallback `aligned_free`
(`detail::aligned_free` of the fallback back-end header, absent from this
fragment). Freeing the null marker does nothing; otherwise the original
unaligned address is read back from the bookkeeping header immediately
before the aligned region and that ordinary block is released. -/
def aligned_free (h : Heap) (p : Nat) : Heap :=
  if p = 0 then h
  else { h with blocks := removeBlock h.blocks (h.mem (p - ptrSize)) }

theorem alignUp_dvd (x n : Nat) : n ∣ alignUp x n :=
  ⟨(x + n - 1) / n, Nat.mul_comm _ _⟩

theorem alignUp_ge (x n : Nat) (hn : 0 < n) : x ≤ alignUp x n := by
  unfold alignUp
  rw [Nat.mul_comm]
  have h := Nat.div_add_mod (x + n - 1) n
  have hm : (x + n - 1) % n < n := Nat.mod_lt _ hn
  revert h hm
  generalize n * ((x + n - 1) / n) = A
  generalize (x + n - 1) % n = m
  intro h hm
  omega

theorem alignUp_le (x n : Nat) : alignUp x n ≤ x + n - 1 :=
  Nat.div_mul_le_self (x + n - 1) n

/-- C3: for every (size, alignment) pair with alignment a power of two, a
successful allocation returns an address divisible by the alignment, and at
least `size` bytes starting at that address lie inside the live underlying
block, past the bookkeeping header — so they are usable by the caller. -/
theorem claim3_success_aligned_and_usable (h : Heap) (size alignment a : Nat)
    (h' : Heap) (hpow : ∃ k, alignment = 2 ^ k)
    (he : aligned_alloc h size alignment = (some a, h')) :
    a % alignment = 0 ∧
    ∃ p n, (p, n) ∈ h'.blocks ∧ p + ptrSize ≤ a ∧ a + size ≤ p + n := by
  obtain ⟨k, hk⟩ := hpow
  have hpos : 0 < alignment := by rw [hk]; positivity
  unfold aligned_alloc aligned_allocT malloc at he
  by_cases hc : h.next + (size + alignment + ptrSize) ≤ addrSpace
  · rw [if_pos hc] at he
    simp only [Prod.mk.injEq, Option.some.injEq] at he
    obtain ⟨ha, hh'⟩ := he
    subst ha
    subst hh'
    constructor
    · obtain ⟨c, hmul⟩ := alignUp_dvd (h.next + ptrSize) alignment
      rw [hmul, Nat.mul_mod_right]
    · refine ⟨h.next, size + alignment + ptrSize, ?_, ?_, ?_⟩
      · exact List.mem_cons_self _ _
      · exact alignUp_ge _ _ hpos
      · have hle := alignUp_le (h.next + ptrSize) alignment
        omega
  · rw [if_neg hc] at he
    simp at he

/-- C4: the fallback allocator is a total function whose only failure signal
is the null marker `none`: the result is always `none` or an address, it
makes exactly one underlying ordinary-allocation attempt (no internal
retry), and on failure the heap is left untouched (no escalation, no other
observable effect); the caller-visible `aligned_alloc` is the projection of
the instrumented run. -/
theorem claim4_failure_only_null (h : Heap) (size alignment : Nat) :
    aligned_alloc h size alignment =
      ((aligned_allocT h size alignment).1,
       (aligned_allocT h size alignment).2.1) ∧
    (aligned_allocT h size alignment).2.2 = 1 ∧
    ((aligned_allocT h size alignment).1 = none ∨
      ∃ a, (aligned_allocT h size alignment).1 = some a) ∧
    ((aligned_allocT h size alignment).1 = none →
      (aligned_allocT h size alignment).2.1 = h) := by
  refine ⟨rfl, ?_, ?_, ?_⟩ <;>
  · unfold aligned_allocT malloc
    by_cases hc : h.next + (size + alignment + ptrSize) ≤ addrSpace <;>
      simp [hc]

/-- C5: freeing the null marker is a no-op — it does not fault and leaves
the whole heap (memory words, live blocks, allocation frontier) unchanged. -/
theorem claim5_free_null_noop (h : Heap) : aligned_free h 0 = h := by
  unfold aligned_free
  rw [if_pos rfl]

theorem aligned_alloc_fail (h : Heap) (size alignment : Nat)
    (hc : ¬ (h.next + (size + alignment + ptrSize) ≤ addrSpace)) :
    aligned_alloc h size alignment = (none, h) := by
  unfold aligned_alloc aligned_allocT malloc
  rw [if_neg hc]

/-- C6: the allocation `aligned_alloc(SIZE_MAX, 16)` fails cleanly on every
heap: the request (payload plus alignment and header) cannot fit in the
address space, so the null marker is returned and the heap is unchanged. -/
theorem claim6_sizemax_fails (h : Heap) :
    aligned_alloc h sizeMax 16 = (none, h) :=
  aligned_alloc_fail h sizeMax 16 (by
    unfold sizeMax ptrSize addrSpace
    have hp : (0 : Nat) < 2 ^ 64 := by positivity
    generalize (2 : Nat) ^ 64 = A at *
    omega)

/-- C7: for every power-of-two alignment, requesting size 0 never faults
and yields a well-defined outcome: either the null marker, or a nonzero
address that can be passed straight to the free operation, which then
releases the underlying block and restores the live-block list to what it
was before the allocation. -/
theorem claim7_size_zero_consistent (h : Heap) (alignment : Nat)
    (hnx : 0 < h.next) (hpow : ∃ k, alignment = 2 ^ k) :
    (aligned_alloc h 0 alignment).1 = none ∨
    ∃ a, (aligned_alloc h 0 alignment).1 = some a ∧ 0 < a ∧
      (aligned_free (aligned_alloc h 0 alignment).2 a).blocks = h.blocks := by
  obtain ⟨k, hk⟩ := hpow
  have hpos : 0 < alignment := by rw [hk]; positivity
  have hge := alignUp_ge (h.next + ptrSize) alignment hpos
  have hrpos : 0 < alignUp (h.next + ptrSize) alignment :=
    Nat.lt_of_lt_of_le (Nat.lt_of_lt_of_le hnx (Nat.le_add_right _ _)) hge
  by_cases hc : h.next + (0 + alignment + ptrSize) ≤ addrSpace
  · right
    refine ⟨alignUp (h.next + ptrSize) alignment, ?_, hrpos, ?_⟩
    · unfold aligned_alloc aligned_allocT malloc
      rw [if_pos hc]
    · unfold aligned_alloc aligned_allocT malloc
      rw [if_pos hc]
      unfold aligned_free
      rw [if_neg (Nat.pos_iff_ne_zero.mp hrpos)]
      simp [removeBlock]
  · left
    unfold aligned_alloc aligned_allocT malloc
    rw [if_neg hc]

/-- The empty heap: nothing stored, no live blocks, first address 1 (so the
null address 0 is never handed out). -/
def heap0 : Heap := ⟨fun _ => 0, [], 1⟩

/-- The heap after allocating 1024 bytes at alignment 64 from the empty
heap. -/
def heap1 : Heap := (aligned_alloc heap0 1024 64).2

/-- Witness for C3: on the empty heap, `aligned_alloc(1024, 64)` succeeds
with address 64, which is divisible by 64, and 1024 bytes starting at 64
lie inside the live block past the header. -/
theorem claim3_witness :
    (∃ k, (64 : Nat) = 2 ^ k) ∧
    ((64 : Nat) % 64 = 0 ∧
      ∃ p n, (p, n) ∈ heap1.blocks ∧ p + ptrSize ≤ 64 ∧ 64 + 1024 ≤ p + n) :=
  ⟨⟨6, rfl⟩,
   claim3_success_aligned_and_usable heap0 1024 64 64 heap1 ⟨6, rfl⟩ rfl⟩

/-- Witness for C7: on the empty heap with alignment 16, a zero-size
request yields either the null marker or a nonzero freeable address (here
it succeeds with a nonzero address). -/
theorem claim7_witness :
    ((0 : Nat) < heap0.next ∧ ∃ k, (16 : Nat) = 2 ^ k) ∧
    ((aligned_alloc heap0 0 16).1 = none ∨
      ∃ a, (aligned_alloc heap0 0 16).1 = some a ∧ 0 < a ∧
        (aligned_free (aligned_alloc heap0 0 16).2 a).blocks = heap0.blocks) :=
  ⟨⟨by decide, ⟨4, rfl⟩⟩,
   claim7_size_zero_consistent heap0 16 (by decide) ⟨4, rfl⟩⟩

end BoostAlign
